import Mathlib

/-!
Verification of the GDB/MI output parser (src/gdbmi.py).

The Python module is a regex-driven tokenizer (`mi_scanner`, with quoted-string
escape decoding via `decode_string`) followed by a recursive-descent parser
(`MIParser`) and a public entry point `parse(text, pedantic=False)`.

This file gives a shallow embedding of that module:
* `Tok` models the (kind, value) token pairs produced by `mi_scanner`;
* `decode_string` models Python's `unicode_escape` decoding of the quoted
  string contents (with documented approximations at exotic corners);
* `mi_scanner_scan` models `re.Scanner.scan`: the ordered-first-match lexical
  rules, returning the token list and the unscanned remainder, or an escape
  decoding failure (Python's `UnicodeDecodeError` raised from the CSTRING
  rule's action);
* the `MI` namespace models every `MIParser` method, each returning either a
  structured grammar error (`GErr`, Python's `SyntaxError` messages) or the
  parsed value together with the remaining token list.  The remaining list is
  carried as a subtype recording that it is a suffix of the input (and, for
  the rules that always consume, strictly shorter) — this mirrors the
  iterator state and makes the recursion well-founded;
* `parse` models the top-level `parse`: scan, `assert not remainder`
  (an `AssertionError` on lexical failure), then `MIParser().parse`, which
  raises `StopIteration` on an empty token stream.
-/

/-- Token kinds and values exactly as produced by `mi_scanner`: the kind
string paired with the value the scanner action stores (an `int` for TOKEN,
the decoded text for CSTRING, the matched text otherwise). -/
inductive Tok where
  | TOKEN (n : Nat)
  | NL
  | PROMPT
  | STRING (s : String)
  | LBRACKET
  | RBRACKET
  | LBRACE
  | RBRACE
  | COMMA
  | CARET
  | ASTERISK
  | PLUS
  | EQUALS
  | TILDE
  | AT
  | AMPERSAND
  | CSTRING (s : String)
deriving DecidableEq, Repr

/-- Kind string of a token, i.e. `token[0]` in the Python tuple. -/
def Tok.kind : Tok → String
  | .TOKEN _ => "TOKEN"
  | .NL => "NL"
  | .PROMPT => "PROMPT"
  | .STRING _ => "STRING"
  | .LBRACKET => "LBRACKET"
  | .RBRACKET => "RBRACKET"
  | .LBRACE => "LBRACE"
  | .RBRACE => "RBRACE"
  | .COMMA => "COMMA"
  | .CARET => "CARET"
  | .ASTERISK => "ASTERISK"
  | .PLUS => "PLUS"
  | .EQUALS => "EQUALS"
  | .TILDE => "TILDE"
  | .AT => "AT"
  | .AMPERSAND => "AMPERSAND"
  | .CSTRING _ => "CSTRING"

/-- Value of a token as a string, i.e. `token[1]` in the Python tuple (for
TOKEN the Python value is the `int`; its textual form is never used by the
parser, which reads the number through `_token_maybe`). -/
def Tok.text : Tok → String
  | .TOKEN n => toString n
  | .NL => "\n"
  | .PROMPT => "(gdb)"
  | .STRING s => s
  | .LBRACKET => "["
  | .RBRACKET => "]"
  | .LBRACE => "\x7b"
  | .RBRACE => "\x7d"
  | .COMMA => ","
  | .CARET => "^"
  | .ASTERISK => "*"
  | .PLUS => "+"
  | .EQUALS => "="
  | .TILDE => "~"
  | .AT => "@"
  | .AMPERSAND => "&"
  | .CSTRING s => s

/-- Values built by `_value`: a decoded C string, a bracket list of plain
values (`_list_values`, with `[]` for the empty `[]`), or a list of named
results (`_tuple` and `_list_results`; each element models one singleton
Python dict produced by `_result`).  Python represents both empty `[]` and
empty `\x7b\x7d` as the same empty list; the model keeps the bracket form as
`vlist []` and the brace form as `results []`. -/
inductive Value where
  | str (s : String)
  | vlist (vs : List Value)
  | results (rs : List (String × Value))

mutual

/-- Decidable equality for `Value` (spelled out because `deriving` does not
handle the nested lists). -/
def Value.decEq : (a b : Value) → Decidable (a = b)
  | .str s, .str t =>
    match String.decEq s t with
    | isTrue h => isTrue (by rw [h])
    | isFalse h => isFalse (by intro hc; cases hc; exact h rfl)
  | .vlist as, .vlist bs =>
    match Value.decEqList as bs with
    | isTrue h => isTrue (by rw [h])
    | isFalse h => isFalse (by intro hc; cases hc; exact h rfl)
  | .results as, .results bs =>
    match Value.decEqPairs as bs with
    | isTrue h => isTrue (by rw [h])
    | isFalse h => isFalse (by intro hc; cases hc; exact h rfl)
  | .str _, .vlist _ => isFalse (by intro hc; cases hc)
  | .str _, .results _ => isFalse (by intro hc; cases hc)
  | .vlist _, .str _ => isFalse (by intro hc; cases hc)
  | .vlist _, .results _ => isFalse (by intro hc; cases hc)
  | .results _, .str _ => isFalse (by intro hc; cases hc)
  | .results _, .vlist _ => isFalse (by intro hc; cases hc)

/-- Decidable equality for lists of `Value`. -/
def Value.decEqList : (as bs : List Value) → Decidable (as = bs)
  | [], [] => isTrue rfl
  | [], _ :: _ => isFalse (by intro hc; cases hc)
  | _ :: _, [] => isFalse (by intro hc; cases hc)
  | a :: as, b :: bs =>
    match Value.decEq a b with
    | isFalse h => isFalse (by intro hc; cases hc; exact h rfl)
    | isTrue h =>
      match Value.decEqList as bs with
      | isTrue h2 => isTrue (by rw [h, h2])
      | isFalse h2 => isFalse (by intro hc; cases hc; exact h2 rfl)

/-- Decidable equality for lists of named results. -/
def Value.decEqPairs : (as bs : List (String × Value)) → Decidable (as = bs)
  | [], [] => isTrue rfl
  | [], _ :: _ => isFalse (by intro hc; cases hc)
  | _ :: _, [] => isFalse (by intro hc; cases hc)
  | (n, a) :: as, (m, b) :: bs =>
    match String.decEq n m with
    | isFalse h => isFalse (by intro hc; cases hc; exact h rfl)
    | isTrue h =>
      match Value.decEq a b with
      | isFalse h2 => isFalse (by intro hc; cases hc; exact h2 rfl)
      | isTrue h2 =>
        match Value.decEqPairs as bs with
        | isTrue h3 => isTrue (by rw [h, h2, h3])
        | isFalse h3 => isFalse (by intro hc; cases hc; exact h3 rfl)

end

instance : DecidableEq Value := Value.decEq

/-- Out-of-band record: an async record 4-tuple
(token, sigil text, class, results) or a stream record 2-tuple
(sigil text, decoded string). -/
inductive Oob where
  | async (token : Option Nat) (sigil : String) (cls : String)
      (results : List (String × Value))
  | stream (sigil : String) (text : String)
deriving DecidableEq

/-- Result record 3-tuple from `_result_record`:
(optional numeric id, result class, optional result list). -/
abbrev ResultRec := Option Nat × String × Option (List (String × Value))

instance : DecidableEq ResultRec := inferInstance

/-- Document returned by `_output`: (out-of-band records, optional result
record). -/
abbrev Document := List Oob × Option ResultRec

instance : DecidableEq Document := inferInstance

/-- Grammar errors, mirroring the `SyntaxError` messages `MIParser.error`
raises: `expected k g` is "expected %s, got %s" from `_expect` (with `g =
none` when the lookahead is the `(None, None)` sentinel of an exhausted
iterator); `oobMarker g` is "expected out-of-band record marker, got '%s'";
`valueKind` is "expected list, tuple or C string". -/
inductive GErr where
  | expected (exp : String) (got : Option String)
  | oobMarker (got : Option String)
  | valueKind
deriving DecidableEq, Repr

/-- Failure modes of the top-level `parse`:
`unicodeDecodeError` — `decode_string` raised while the scanner ran a
CSTRING action; `assertionError` — the `assert not remainder` lexical check
failed; `stopIteration` — `next(self._tokens)` on an empty token stream in
`MIParser.parse`; `syntaxError` — a grammar error raised by
`MIParser.error`. -/
inductive Fault where
  | unicodeDecodeError (msg : String)
  | assertionError
  | stopIteration
  | syntaxError (e : GErr)
deriving DecidableEq, Repr

/-- Decidable equality of `Except` results, so concrete runs of the model
can be settled by `decide`. -/
def exceptDecEq {ε α : Type} [DecidableEq ε] [DecidableEq α] :
    (x y : Except ε α) → Decidable (x = y)
  | .error e, .error f =>
    if h : e = f then isTrue (by rw [h])
    else isFalse (by intro hc; cases hc; exact h rfl)
  | .ok a, .ok b =>
    if h : a = b then isTrue (by rw [h])
    else isFalse (by intro hc; cases hc; exact h rfl)
  | .error _, .ok _ => isFalse (by intro hc; cases hc)
  | .ok _, .error _ => isFalse (by intro hc; cases hc)

instance {ε α : Type} [DecidableEq ε] [DecidableEq α] :
    DecidableEq (Except ε α) := exceptDecEq

/-! ## Tokenizer: `decode_string` and `mi_scanner` -/

/-- Numeric value of a hex digit, if any. -/
def hexVal (c : Char) : Option Nat :=
  if '0' ≤ c ∧ c ≤ '9' then some (c.toNat - 48)
  else if 'a' ≤ c ∧ c ≤ 'f' then some (c.toNat - 87)
  else if 'A' ≤ c ∧ c ≤ 'F' then some (c.toNat - 55)
  else none

/-- Octal digit test. -/
def isOctal (c : Char) : Bool := '0' ≤ c && c ≤ '7'

/-- Numeric value of an octal digit. -/
def octVal (c : Char) : Nat := c.toNat - 48

/-- Read exactly `n` hex digits, returning their value and the rest. -/
def readHex : (n : Nat) → (cs : List Char) →
    Option (Nat × { r : List Char // r.length ≤ cs.length })
  | 0, cs => some (0, ⟨cs, Nat.le_refl _⟩)
  | _ + 1, [] => none
  | n + 1, c :: l =>
    match hexVal c with
    | none => none
    | some v =>
      match readHex n l with
      | none => none
      | some (w, ⟨r, h⟩) => some (v * 16 ^ n + w, ⟨r, by simp; omega⟩)

/-- Model of Python's `unicode_escape` decoding used by `decode_string`.
Handles the simple escapes, octal (up to three digits), `\xhh`, `\uhhhh` and
`\Uhhhhhhhh` (rejecting values above 0x10FFFF), keeps unknown escapes
verbatim (as Python does, bar a deprecation warning), treats
backslash-newline as a line continuation, and fails on a trailing backslash
or a truncated hex escape, as Python's decoder does by raising
`UnicodeDecodeError`.  Two documented approximations: `\N{name}` (a Unicode
name-database lookup) is modelled as a failure, and code points in the
surrogate range — which Python can place in a `str` — fall back to `'\x00'`
because they are not valid Lean `Char`s.  Neither corner is exercised by any
claim. -/
def decodeChars : (cs : List Char) → Except String (List Char)
  | [] => .ok []
  | '\\' :: rest =>
    match rest with
    | [] => .error "trailing backslash in string"
    | c :: rest2 =>
      if c = '\n' then decodeChars rest2
      else if c = '\\' then
        match decodeChars rest2 with
        | .error e => .error e | .ok ds => .ok ('\\' :: ds)
      else if c = '\'' then
        match decodeChars rest2 with
        | .error e => .error e | .ok ds => .ok ('\'' :: ds)
      else if c = '"' then
        match decodeChars rest2 with
        | .error e => .error e | .ok ds => .ok ('"' :: ds)
      else if c = 'a' then
        match decodeChars rest2 with
        | .error e => .error e | .ok ds => .ok (Char.ofNat 7 :: ds)
      else if c = 'b' then
        match decodeChars rest2 with
        | .error e => .error e | .ok ds => .ok (Char.ofNat 8 :: ds)
      else if c = 'f' then
        match decodeChars rest2 with
        | .error e => .error e | .ok ds => .ok (Char.ofNat 12 :: ds)
      else if c = 'n' then
        match decodeChars rest2 with
        | .error e => .error e | .ok ds => .ok ('\n' :: ds)
      else if c = 'r' then
        match decodeChars rest2 with
        | .error e => .error e | .ok ds => .ok ('\r' :: ds)
      else if c = 't' then
        match decodeChars rest2 with
        | .error e => .error e | .ok ds => .ok ('\t' :: ds)
      else if c = 'v' then
        match decodeChars rest2 with
        | .error e => .error e | .ok ds => .ok (Char.ofNat 11 :: ds)
      else if isOctal c then
        match rest2 with
        | d1 :: rest3 =>
          if isOctal d1 then
            match rest3 with
            | d2 :: rest4 =>
              if isOctal d2 then
                match decodeChars rest4 with
                | .error e => .error e
                | .ok ds =>
                  .ok (Char.ofNat (64 * octVal c + 8 * octVal d1 + octVal d2)
                        :: ds)
              else
                match decodeChars (d2 :: rest4) with
                | .error e => .error e
                | .ok ds => .ok (Char.ofNat (8 * octVal c + octVal d1) :: ds)
            | [] =>
              match decodeChars ([] : List Char) with
              | .error e => .error e
              | .ok ds => .ok (Char.ofNat (8 * octVal c + octVal d1) :: ds)
          else
            match decodeChars (d1 :: rest3) with
            | .error e => .error e
            | .ok ds => .ok (Char.ofNat (octVal c) :: ds)
        | [] =>
          match decodeChars ([] : List Char) with
          | .error e => .error e
          | .ok ds => .ok (Char.ofNat (octVal c) :: ds)
      else if c = 'x' then
        match readHex 2 rest2 with
        | none => .error "truncated \\xXX escape"
        | some (v, ⟨r, hr⟩) =>
          match decodeChars r with
          | .error e => .error e
          | .ok ds => .ok (Char.ofNat v :: ds)
      else if c = 'u' then
        match readHex 4 rest2 with
        | none => .error "truncated \\uXXXX escape"
        | some (v, ⟨r, hr⟩) =>
          match decodeChars r with
          | .error e => .error e
          | .ok ds => .ok (Char.ofNat v :: ds)
      else if c = 'U' then
        match readHex 8 rest2 with
        | none => .error "truncated \\UXXXXXXXX escape"
        | some (v, ⟨r, hr⟩) =>
          if v > 0x10FFFF then .error "illegal Unicode character"
          else
            match decodeChars r with
            | .error e => .error e
            | .ok ds => .ok (Char.ofNat v :: ds)
      else if c = 'N' then .error "\\N escapes are not modelled"
      else
        match decodeChars rest2 with
        | .error e => .error e
        | .ok ds => .ok ('\\' :: c :: ds)
  | c :: rest =>
    match decodeChars rest with
    | .error e => .error e
    | .ok ds => .ok (c :: ds)
termination_by cs => cs.length
decreasing_by
  all_goals (simp only [List.length_cons] at *; omega)

/-- Model of `decode_string`: decode the captured quoted-string body. -/
def decode_string (s : String) : Except String String :=
  match decodeChars s.data with
  | .error e => .error e
  | .ok ds => .ok (String.mk ds)

/-- Body of the CSTRING lexical rule after the opening quote: the regex
`(?:[^"\\]|\\.)*"` — runs of non-quote-non-backslash characters or
backslash-escape pairs (the escaped character may not be a newline, since
`.` does not match `\n`), up to the closing quote.  Returns the raw body and
the characters after the closing quote, or `none` when the regex does not
match (unterminated string, or a backslash immediately before a newline or
at the end). -/
def cstrBody : (cs : List Char) →
    Option (List Char × { r : List Char // r.length < cs.length })
  | [] => none
  | '"' :: r => some ([], ⟨r, by simp⟩)
  | '\\' :: [] => none
  | '\\' :: c :: r =>
    if c = '\n' then none
    else
      match cstrBody r with
      | none => none
      | some (b, ⟨rest, h⟩) => some ('\\' :: c :: b, ⟨rest, by simp; omega⟩)
  | c :: r =>
    match cstrBody r with
    | none => none
    | some (b, ⟨rest, h⟩) => some (c :: b, ⟨rest, by simp; omega⟩)

/-- Identifier start class `[a-zA-Z_]`. -/
def isIdentStart (c : Char) : Bool := c.isAlpha || c = '_'

/-- Identifier continuation class `[a-zA-Z0-9_-]`. -/
def isIdentChar (c : Char) : Bool := c.isAlpha || c.isDigit || c = '_' || c = '-'

/-- Numeric value of a digit run, Python's `int(t)`. -/
def digitsToNat (cs : List Char) : Nat :=
  cs.foldl (fun a c => 10 * a + (c.toNat - 48)) 0

/-- Dropping a prefix by predicate never lengthens a list. -/
theorem length_dropWhile_le {α : Type} (p : α → Bool) (l : List α) :
    (l.dropWhile p).length ≤ l.length := by
  induction l with
  | nil => simp
  | cons c l ih =>
    rw [List.dropWhile_cons]
    split
    · simp only [List.length_cons]; omega
    · simp

/-- One step of `re.Scanner.scan`: try the lexical rules of `mi_scanner` in
order at the current position (Python's alternation takes the first matching
alternative, each greedy).  `ok none` means no rule matches (the scanner
stops, leaving the remainder); `error` models the `UnicodeDecodeError` the
CSTRING action can raise from `decode_string`.  The digit class is modelled
as ASCII `0`-`9` (Python's `\d` also accepts non-ASCII decimal digits; no
claim depends on those). -/
def scanOne : (cs : List Char) →
    Except String (Option (Tok × { r : List Char // r.length < cs.length }))
  | [] => .ok none
  | c :: l =>
    if c.isDigit then
      .ok (some (.TOKEN (digitsToNat (c :: l.takeWhile Char.isDigit)),
        ⟨l.dropWhile Char.isDigit, by
          have := length_dropWhile_le Char.isDigit l
          simp only [List.length_cons]; omega⟩))
    else if c = '\n' then .ok (some (.NL, ⟨l, by simp⟩))
    else if c = '(' then
      match l with
      | 'g' :: 'd' :: 'b' :: ')' :: r =>
        .ok (some (.PROMPT, ⟨r, by simp only [List.length_cons]; omega⟩))
      | _ => .ok none
    else if isIdentStart c then
      .ok (some (.STRING (String.mk (c :: l.takeWhile isIdentChar)),
        ⟨l.dropWhile isIdentChar, by
          have := length_dropWhile_le isIdentChar l
          simp only [List.length_cons]; omega⟩))
    else if c = '[' then .ok (some (.LBRACKET, ⟨l, by simp⟩))
    else if c = ']' then .ok (some (.RBRACKET, ⟨l, by simp⟩))
    else if c = '\x7b' then .ok (some (.LBRACE, ⟨l, by simp⟩))
    else if c = '\x7d' then .ok (some (.RBRACE, ⟨l, by simp⟩))
    else if c = ',' then .ok (some (.COMMA, ⟨l, by simp⟩))
    else if c = '^' then .ok (some (.CARET, ⟨l, by simp⟩))
    else if c = '*' then .ok (some (.ASTERISK, ⟨l, by simp⟩))
    else if c = '+' then .ok (some (.PLUS, ⟨l, by simp⟩))
    else if c = '=' then .ok (some (.EQUALS, ⟨l, by simp⟩))
    else if c = '~' then .ok (some (.TILDE, ⟨l, by simp⟩))
    else if c = '@' then .ok (some (.AT, ⟨l, by simp⟩))
    else if c = '&' then .ok (some (.AMPERSAND, ⟨l, by simp⟩))
    else if c = '"' then
      match cstrBody l with
      | none => .ok none
      | some (body, ⟨after, h⟩) =>
        match decodeChars body with
        | .error e => .error e
        | .ok ds =>
          .ok (some (.CSTRING (String.mk ds),
            ⟨after, by simp only [List.length_cons]; omega⟩))
    else .ok none

/-- Scan loop of `re.Scanner.scan`: repeat `scanOne` until no rule matches,
collecting tokens; stop at the first unmatched position (remainder), or
propagate a `decode_string` failure. -/
def scanAux (cs : List Char) : Except String (List Tok × List Char) :=
  match scanOne cs with
  | .error e => .error e
  | .ok none => .ok ([], cs)
  | .ok (some (t, ⟨r, _⟩)) =>
    match scanAux r with
    | .error e => .error e
    | .ok (ts, rem) => .ok (t :: ts, rem)
termination_by cs.length

/-- Model of `mi_scanner.scan(text)`: the token list and unscanned
remainder, or a `UnicodeDecodeError` from a CSTRING action. -/
def mi_scanner_scan (text : String) : Except String (List Tok × String) :=
  match scanAux text.data with
  | .error e => .error e
  | .ok (ts, rem) => .ok (ts, String.mk rem)

namespace MI

/-- Remaining token stream of a rule that may consume nothing: a suffix of
its input (this is how the model carries the iterator state that Python
mutates in place). -/
abbrev Rest (ts : List Tok) := { r : List Tok // r <:+ ts }

/-- Remaining token stream of a rule that always consumes at least one
token on success. -/
abbrev Consumed (ts : List Tok) :=
  { r : List Tok // r <:+ ts ∧ r.length < ts.length }

/-- Kind of the lookahead token (`self._lookahead()[0]`); `none` is the
`(None, None)` sentinel `_advance` substitutes at iterator exhaustion. -/
def headKind : List Tok → Option String
  | [] => none
  | t :: _ => some t.kind

/-- Model of `_check`. -/
def check (k : String) (ts : List Tok) : Bool := headKind ts == some k

/-- Model of `_expect` (`_accept` then `error("expected %s, got %s")`). -/
def expect (k : String) : (ts : List Tok) → Except GErr (Tok × Consumed ts)
  | [] => .error (.expected k none)
  | t :: r =>
    if t.kind = k then
      .ok (t, ⟨r, List.suffix_cons t r, by simp⟩)
    else .error (.expected k (some t.kind))

/-- Model of `_accept`: consume and return the token when the kind matches,
else leave the stream unchanged (Python returns `False`). -/
def accept (k : String) : (ts : List Tok) → Option Tok × Rest ts
  | [] => (none, ⟨[], List.suffix_refl _⟩)
  | t :: r =>
    if t.kind = k then (some t, ⟨r, List.suffix_cons t r⟩)
    else (none, ⟨t :: r, List.suffix_refl _⟩)

/-- Model of `_token_maybe`: the numeric value of an optional leading TOKEN. -/
def token_maybe : (ts : List Tok) → Option Nat × Rest ts
  | Tok.TOKEN n :: r => (some n, ⟨r, List.suffix_cons _ _⟩)
  | ts => (none, ⟨ts, List.suffix_refl _⟩)

/-- Model of `_string`: the value of an expected STRING token. -/
def string (ts : List Tok) : Except GErr (String × Consumed ts) :=
  match expect "STRING" ts with
  | .error e => .error e
  | .ok (t, r) => .ok (t.text, r)

/-- Model of `_cstring`: the (already decoded) value of an expected CSTRING
token. -/
def cstring (ts : List Tok) : Except GErr (String × Consumed ts) :=
  match expect "CSTRING" ts with
  | .error e => .error e
  | .ok (t, r) => .ok (t.text, r)

/-- Chaining: a further rest after a consuming step still consumed. -/
theorem chain_lt_le {ts r1 r2 : List Tok}
    (h1 : r1 <:+ ts ∧ r1.length < ts.length) (h2 : r2 <:+ r1) :
    r2 <:+ ts ∧ r2.length < ts.length :=
  ⟨h2.trans h1.1, lt_of_le_of_lt h2.length_le h1.2⟩

/-- Chaining: a consuming step after a possibly-empty step consumed. -/
theorem chain_le_lt {ts r1 r2 : List Tok}
    (h1 : r1 <:+ ts) (h2 : r2 <:+ r1 ∧ r2.length < r1.length) :
    r2 <:+ ts ∧ r2.length < ts.length :=
  ⟨h2.1.trans h1, lt_of_lt_of_le h2.2 h1.length_le⟩

mutual

/-- Model of `_value`: dispatch on the lookahead kind, otherwise the
"expected list, tuple or C string" error. -/
def value (ts : List Tok) : Except GErr (Value × Consumed ts) :=
  match headKind ts with
  | some "LBRACKET" => list ts
  | some "CSTRING" =>
    match cstring ts with
    | .error e => .error e
    | .ok (s, r) => .ok (.str s, r)
  | some "LBRACE" => tuple ts
  | _ => .error .valueKind
termination_by 4 * ts.length + 1
decreasing_by all_goals (simp_all <;> omega)

/-- Model of `_list`: `[`, then an immediate `]` (empty Python list), a
named-result list when the lookahead is a STRING, or a plain value list. -/
def list (ts : List Tok) : Except GErr (Value × Consumed ts) :=
  match expect "LBRACKET" ts with
  | .error e => .error e
  | .ok (_, ⟨r1, h1⟩) =>
    match accept "RBRACKET" r1 with
    | (some _, ⟨r2, h2⟩) => .ok (.vlist [], ⟨r2, chain_lt_le h1 h2⟩)
    | (none, _) =>
      if check "STRING" r1 then
        match list_results r1 with
        | .error e => .error e
        | .ok (v, ⟨r2, h2⟩) => .ok (v, ⟨r2, chain_lt_le h1 h2.1⟩)
      else
        match list_values r1 with
        | .error e => .error e
        | .ok (v, ⟨r2, h2⟩) => .ok (v, ⟨r2, chain_lt_le h1 h2.1⟩)
termination_by 4 * ts.length
decreasing_by all_goals (simp_all <;> omega)

/-- Model of `_list_values`: the leading value, then the comma loop and the
closing `]` (folded into `list_values_tail`). -/
def list_values (ts : List Tok) : Except GErr (Value × Consumed ts) :=
  match value ts with
  | .error e => .error e
  | .ok (v, ⟨r1, h1⟩) =>
    match list_values_tail r1 with
    | .error e => .error e
    | .ok (vs, ⟨r2, h2⟩) => .ok (.vlist (v :: vs), ⟨r2, chain_lt_le h1 h2.1⟩)
termination_by 4 * ts.length + 2
decreasing_by all_goals (simp_all <;> omega)

/-- While-comma loop of `_list_values` followed by its `_expect("RBRACKET")`. -/
def list_values_tail (ts : List Tok) :
    Except GErr (List Value × Consumed ts) :=
  if check "COMMA" ts then
    match expect "COMMA" ts with
    | .error e => .error e
    | .ok (_, ⟨r1, h1⟩) =>
      match value r1 with
      | .error e => .error e
      | .ok (v, ⟨r2, h2⟩) =>
        match list_values_tail r2 with
        | .error e => .error e
        | .ok (vs, ⟨r3, h3⟩) =>
          .ok (v :: vs, ⟨r3, chain_lt_le h1 (chain_lt_le h2 h3.1).1⟩)
  else
    match expect "RBRACKET" ts with
    | .error e => .error e
    | .ok (_, r) => .ok ([], r)
termination_by 4 * ts.length
decreasing_by all_goals (simp_all <;> omega)

/-- Model of `_list_results`: one result, then the comma loop closed by `]`. -/
def list_results (ts : List Tok) : Except GErr (Value × Consumed ts) :=
  match result ts with
  | .error e => .error e
  | .ok (p, ⟨r1, h1⟩) =>
    match comma_results "RBRACKET" r1 with
    | .error e => .error e
    | .ok (ps, ⟨r2, h2⟩) => .ok (.results (p :: ps), ⟨r2, chain_lt_le h1 h2.1⟩)
termination_by 4 * ts.length + 2
decreasing_by all_goals (simp_all <;> omega)

/-- Model of `_tuple`: an empty Python list for `\x7b\x7d`, else one result and
the comma loop closed by `\x7d`. -/
def tuple (ts : List Tok) : Except GErr (Value × Consumed ts) :=
  match expect "LBRACE" ts with
  | .error e => .error e
  | .ok (_, ⟨r1, h1⟩) =>
    match accept "RBRACE" r1 with
    | (some _, ⟨r2, h2⟩) => .ok (.results [], ⟨r2, chain_lt_le h1 h2⟩)
    | (none, _) =>
      match result r1 with
      | .error e => .error e
      | .ok (p, ⟨r2, h2⟩) =>
        match comma_results "RBRACE" r2 with
        | .error e => .error e
        | .ok (ps, ⟨r3, h3⟩) =>
          .ok (.results (p :: ps), ⟨r3, chain_lt_le h1 (chain_lt_le h2 h3.1).1⟩)
termination_by 4 * ts.length
decreasing_by all_goals (simp_all <;> omega)

/-- Model of `_result`: `name = value`, one singleton dict in Python, one
(name, value) pair here. -/
def result (ts : List Tok) : Except GErr ((String × Value) × Consumed ts) :=
  match string ts with
  | .error e => .error e
  | .ok (n, ⟨r1, h1⟩) =>
    match expect "EQUALS" r1 with
    | .error e => .error e
    | .ok (_, ⟨r2, h2⟩) =>
      match value r2 with
      | .error e => .error e
      | .ok (v, ⟨r3, h3⟩) =>
        .ok ((n, v), ⟨r3, chain_lt_le h1 (chain_lt_le h2 h3.1).1⟩)
termination_by 4 * ts.length + 1
decreasing_by all_goals (simp_all <;> omega)

/-- Model of `_comma_prefixed_results`: zero or more comma-led results,
then the closing token kind (`closer`, "NL" by default at the call sites). -/
def comma_results (closer : String) (ts : List Tok) :
    Except GErr (List (String × Value) × Consumed ts) :=
  if check "COMMA" ts then
    match expect "COMMA" ts with
    | .error e => .error e
    | .ok (_, ⟨r1, h1⟩) =>
      match result r1 with
      | .error e => .error e
      | .ok (p, ⟨r2, h2⟩) =>
        match comma_results closer r2 with
        | .error e => .error e
        | .ok (ps, ⟨r3, h3⟩) =>
          .ok (p :: ps, ⟨r3, chain_lt_le h1 (chain_lt_le h2 h3.1).1⟩)
  else
    match expect closer ts with
    | .error e => .error e
    | .ok (_, r) => .ok ([], r)
termination_by 4 * ts.length
decreasing_by all_goals (simp_all <;> omega)

end

end MI

namespace MI

/-- Model of `_stream_output`: expect the sigil, then a C string; only in
lenient mode is a following newline (optionally) consumed — in pedantic mode
the newline is left in the stream. -/
def stream_output (ped : Bool) (sig : String) (ts : List Tok) :
    Except GErr (Oob × Consumed ts) :=
  match expect sig ts with
  | .error e => .error e
  | .ok (t, ⟨r1, h1⟩) =>
    match cstring r1 with
    | .error e => .error e
    | .ok (s, ⟨r2, h2⟩) =>
      if ped then .ok (.stream t.text s, ⟨r2, chain_lt_le h1 h2.1⟩)
      else
        match accept "NL" r2 with
        | (_, ⟨r3, h3⟩) =>
          .ok (.stream t.text s, ⟨r3, chain_lt_le h1 (chain_lt_le h2 h3).1⟩)

/-- Model of `_async_output`: optional numeric id, the sigil, the async
class, then a comma-led result list closed by a newline. -/
def async_output (sig : String) (ts : List Tok) :
    Except GErr (Oob × Consumed ts) :=
  match token_maybe ts with
  | (tk, ⟨r1, h1⟩) =>
    match expect sig r1 with
    | .error e => .error e
    | .ok (t, ⟨r2, h2⟩) =>
      match string r2 with
      | .error e => .error e
      | .ok (cls, ⟨r3, h3⟩) =>
        match comma_results "NL" r3 with
        | .error e => .error e
        | .ok (ps, ⟨r4, h4⟩) =>
          .ok (.async tk t.text cls ps,
            ⟨r4, chain_le_lt h1 (chain_lt_le h2 (chain_lt_le h3 h4.1).1)⟩)

/-- Model of `_out_of_band_record`: table dispatch on the lookahead kind;
a lookup miss is the "expected out-of-band record marker" error. -/
def out_of_band_record (ped : Bool) (ts : List Tok) :
    Except GErr (Oob × Consumed ts) :=
  match headKind ts with
  | some "ASTERISK" => async_output "ASTERISK" ts
  | some "PLUS" => async_output "PLUS" ts
  | some "EQUALS" => async_output "EQUALS" ts
  | some "TILDE" => stream_output ped "TILDE" ts
  | some "AT" => stream_output ped "AT" ts
  | some "AMPERSAND" => stream_output ped "AMPERSAND" ts
  | k => .error (.oobMarker k)

/-- Model of `_result_record`: optional numeric id, caret, result class,
optional comma-led result list, newline.  Faithfully kept quirk: when a
comma-led list is present, `_comma_prefixed_results` already consumed one
newline as its closer and `_result_record` then expects a second one. -/
def result_record (ts : List Tok) :
    Except GErr (ResultRec × Consumed ts) :=
  match token_maybe ts with
  | (tk, ⟨r1, h1⟩) =>
    match expect "CARET" r1 with
    | .error e => .error e
    | .ok (_, ⟨r2, h2⟩) =>
      match string r2 with
      | .error e => .error e
      | .ok (cls, ⟨r3, h3⟩) =>
        if check "COMMA" r3 then
          match comma_results "NL" r3 with
          | .error e => .error e
          | .ok (ps, ⟨r4, h4⟩) =>
            match expect "NL" r4 with
            | .error e => .error e
            | .ok (_, ⟨r5, h5⟩) =>
              .ok ((tk, cls, some ps),
                ⟨r5, chain_le_lt h1
                  (chain_lt_le h2 (chain_lt_le h3 (chain_lt_le h4 h5.1).1).1)⟩)
        else
          match expect "NL" r3 with
          | .error e => .error e
          | .ok (_, ⟨r4, h4⟩) =>
            .ok ((tk, cls, none),
              ⟨r4, chain_le_lt h1 (chain_lt_le h2 (chain_lt_le h3 h4.1).1)⟩)

/-- First loop of `_output`: out-of-band records while the lookahead is
neither the caret nor the prompt. -/
def oob_loop (ped : Bool) (ts : List Tok) :
    Except GErr (List Oob × Rest ts) :=
  if check "CARET" ts || check "PROMPT" ts then
    .ok ([], ⟨ts, List.suffix_refl _⟩)
  else
    match out_of_band_record ped ts with
    | .error e => .error e
    | .ok (o, ⟨r1, h1⟩) =>
      match oob_loop ped r1 with
      | .error e => .error e
      | .ok (os, ⟨r2, h2⟩) => .ok (o :: os, ⟨r2, h2.trans h1.1⟩)
termination_by ts.length
decreasing_by all_goals (simp_all <;> omega)

/-- Lenient-mode loop of `_output`: further out-of-band records until the
prompt is reached. -/
def post_loop (ped : Bool) (ts : List Tok) :
    Except GErr (List Oob × Rest ts) :=
  if check "PROMPT" ts then .ok ([], ⟨ts, List.suffix_refl _⟩)
  else
    match out_of_band_record ped ts with
    | .error e => .error e
    | .ok (o, ⟨r1, h1⟩) =>
      match post_loop ped r1 with
      | .error e => .error e
      | .ok (os, ⟨r2, h2⟩) => .ok (o :: os, ⟨r2, h2.trans h1.1⟩)
termination_by ts.length
decreasing_by all_goals (simp_all <;> omega)

/-- The lenient-mode extra loop of `_output` as `_output` runs it: skipped
entirely (no records) when pedantic, else `post_loop`. -/
def post_records (ped : Bool) (ts : List Tok) :
    Except GErr (List Oob × Rest ts) :=
  if ped then .ok ([], ⟨ts, List.suffix_refl _⟩) else post_loop ped ts

/-- Tail of `_output` after the optional result record: the lenient-mode
loop (skipped when pedantic), then expect the prompt and the final
newline; returns the document with the post-result records appended to the
records collected before. -/
def output_end (ped : Bool) (oobs : List Oob) (rr : Option ResultRec)
    (ts : List Tok) : Except GErr (Document × Rest ts) :=
  match post_records ped ts with
  | .error e => .error e
  | .ok (oobs2, ⟨t3, h3⟩) =>
    match expect "PROMPT" t3 with
    | .error e => .error e
    | .ok (_, ⟨t4, h4⟩) =>
      match expect "NL" t4 with
      | .error e => .error e
      | .ok (_, ⟨t5, h5⟩) =>
        .ok ((oobs ++ oobs2, rr), ⟨t5, (h5.1.trans h4.1).trans h3⟩)

/-- Model of `_output`: leading out-of-band records, an optional result
record introduced by the caret, the lenient-mode loop, prompt, newline. -/
def output (ped : Bool) (ts : List Tok) :
    Except GErr (Document × Rest ts) :=
  match oob_loop ped ts with
  | .error e => .error e
  | .ok (oobs, ⟨t1, h1⟩) =>
    if check "CARET" t1 then
      match result_record t1 with
      | .error e => .error e
      | .ok (rr, ⟨t2, h2⟩) =>
        match output_end ped oobs (some rr) t2 with
        | .error e => .error e
        | .ok (doc, ⟨t3, h3⟩) => .ok (doc, ⟨t3, (h3.trans h2.1).trans h1⟩)
    else
      match output_end ped oobs none t1 with
      | .error e => .error e
      | .ok (doc, ⟨t3, h3⟩) => .ok (doc, ⟨t3, h3.trans h1⟩)

end MI

namespace MIParser

/-- Model of `MIParser.parse`: priming the lookahead with `next` on an
empty token stream raises `StopIteration`; otherwise `_output` runs and any
tokens left after it are simply abandoned with the iterator. -/
def parse (tokens : List Tok) (pedantic : Bool) : Except Fault Document :=
  match tokens with
  | [] => .error .stopIteration
  | _ :: _ =>
    match MI.output pedantic tokens with
    | .error g => .error (.syntaxError g)
    | .ok (doc, _) => .ok doc

end MIParser

/-- Model of the module-level `parse(text, pedantic=False)`: scan, then
`assert not remainder` (an `AssertionError` when some suffix matches no
lexical rule), then the grammar parse.  A `UnicodeDecodeError` raised by a
CSTRING action propagates from the scan itself, before the assert. -/
def parse (text : String) (pedantic : Bool) : Except Fault Document :=
  match mi_scanner_scan text with
  | .error e => .error (.unicodeDecodeError e)
  | .ok (tokens, remainder) =>
    if remainder = "" then MIParser.parse tokens pedantic
    else .error .assertionError



/-! ## Token renderings of values (for the order/duplicate preservation
claim) -/

/-- Forget the stream invariant of a parse result, for readable statements:
just the parsed value and the remaining token list. -/
def MI.unbundleC {α : Type} {ts : List Tok}
    (x : Except GErr (α × MI.Consumed ts)) : Except GErr (α × List Tok) :=
  match x with
  | .error e => .error e
  | .ok (a, r) => .ok (a, r.val)

mutual

/-- Canonical token rendering of a value: the token sequence `_value` reads
back to exactly this value (result lists render in their brace form). -/
def renderValue : Value → List Tok
  | .str s => [.CSTRING s]
  | .vlist [] => [.LBRACKET, .RBRACKET]
  | .vlist (v :: vs) =>
    Tok.LBRACKET :: (renderValue v ++ renderValuesTail vs ++ [Tok.RBRACKET])
  | .results [] => [.LBRACE, .RBRACE]
  | .results (p :: ps) =>
    Tok.LBRACE :: (renderResult p ++ renderResultsTail ps ++ [Tok.RBRACE])

/-- Rendering of the `, value , value …` tail of a plain value list. -/
def renderValuesTail : List Value → List Tok
  | [] => []
  | v :: vs => Tok.COMMA :: (renderValue v ++ renderValuesTail vs)

/-- Rendering of one named result, `name = value`. -/
def renderResult : String × Value → List Tok
  | (n, v) => Tok.STRING n :: Tok.EQUALS :: renderValue v

/-- Rendering of the `, name = value , …` tail of a result list. -/
def renderResultsTail : List (String × Value) → List Tok
  | [] => []
  | p :: ps => Tok.COMMA :: (renderResult p ++ renderResultsTail ps)

end

/-- Structural induction on `Value` through the nested lists. -/
theorem Value.inductionOn {P : Value → Prop}
    (hstr : ∀ s, P (.str s))
    (hlist : ∀ vs, (∀ v ∈ vs, P v) → P (.vlist vs))
    (hres : ∀ ps, (∀ p ∈ ps, P p.2) → P (.results ps)) :
    ∀ v, P v
  | .str s => hstr s
  | .vlist vs =>
    hlist vs (fun v hv => Value.inductionOn hstr hlist hres v)
  | .results ps =>
    hres ps (fun p hp => Value.inductionOn hstr hlist hres p.2)
termination_by v => sizeOf v
decreasing_by
  · have := List.sizeOf_lt_of_mem hv
    simp
    all_goals omega
  · have h1 := List.sizeOf_lt_of_mem hp
    have h2 : sizeOf p.2 < sizeOf p := by
      obtain ⟨a, b⟩ := p
      simp
      all_goals omega
    simp
    all_goals omega

/-! ## Concrete runs of the model -/

/-- C1: on the input `"1^done,bkpt=\x7bnumber=\"1\"\x7d\n(gdb)\n"` the parser does
NOT take up the leading numeric id: `_output` only enters `_result_record`
when the lookahead is already the caret, so the TOKEN lookahead is
dispatched to `_out_of_band_record`, whose table lookup fails with
"expected out-of-band record marker, got 'TOKEN'".  The claimed success
with result `(1, "done", [("bkpt", [("number", "1")])])` does not happen:
`_result_record`'s and `_async_output`'s `_token_maybe` calls are
unreachable with a pending TOKEN. -/
theorem claim1_leading_token_rejected :
    parse "1^done,bkpt=\x7bnumber=\"1\"\x7d\n(gdb)\n" false
      = .error (.syntaxError (.oobMarker (some "TOKEN"))) := by
  simp [parse, mi_scanner_scan, scanAux, scanOne, cstrBody, decodeChars, decode_string,
    readHex, hexVal, isOctal, octVal, digitsToNat, isIdentStart, isIdentChar,
    MIParser.parse, MI.output, MI.output_end, MI.post_records, MI.oob_loop, MI.post_loop,
    MI.out_of_band_record, MI.result_record, MI.stream_output, MI.async_output,
    MI.token_maybe, MI.expect, MI.accept, MI.check, MI.headKind, MI.string,
    MI.cstring, MI.value, MI.list, MI.tuple, MI.list_values, MI.list_values_tail,
    MI.list_results, MI.result, MI.comma_results, Tok.kind, Tok.text]

/-- C2: the two modes do NOT differ as claimed on stream-record newlines;
the difference is inverted.  In pedantic mode `_stream_output` never
consumes the newline after the C string, so the grammar-conformant,
newline-terminated stream record is rejected ("expected out-of-band record
marker, got 'NL'"), while the newline-less form is accepted; lenient mode
accepts both. -/
theorem claim2_pedantic_stream_newline_inverted :
    parse "~\"hello\"\n(gdb)\n" false = .ok ([.stream "~" "hello"], none)
  ∧ parse "~\"hello\"\n(gdb)\n" true
      = .error (.syntaxError (.oobMarker (some "NL")))
  ∧ parse "~\"hello\"(gdb)\n" true = .ok ([.stream "~" "hello"], none) := by
  refine ⟨?_, ?_, ?_⟩ <;>
  simp [parse, mi_scanner_scan, scanAux, scanOne, cstrBody, decodeChars, decode_string,
    readHex, hexVal, isOctal, octVal, digitsToNat, isIdentStart, isIdentChar,
    MIParser.parse, MI.output, MI.output_end, MI.post_records, MI.oob_loop, MI.post_loop,
    MI.out_of_band_record, MI.result_record, MI.stream_output, MI.async_output,
    MI.token_maybe, MI.expect, MI.accept, MI.check, MI.headKind, MI.string,
    MI.cstring, MI.value, MI.list, MI.tuple, MI.list_values, MI.list_values_tail,
    MI.list_results, MI.result, MI.comma_results, Tok.kind, Tok.text]

/-- C8: the input `"^done\n(gdb)\n"` parses in lenient mode to the empty
out-of-band list and the result record `(None, "done", None)`. -/
theorem claim8_scenario1 :
    parse "^done\n(gdb)\n" false = .ok ([], some (none, "done", none)) := by
  simp [parse, mi_scanner_scan, scanAux, scanOne, cstrBody, decodeChars, decode_string,
    readHex, hexVal, isOctal, octVal, digitsToNat, isIdentStart, isIdentChar,
    MIParser.parse, MI.output, MI.output_end, MI.post_records, MI.oob_loop, MI.post_loop,
    MI.out_of_band_record, MI.result_record, MI.stream_output, MI.async_output,
    MI.token_maybe, MI.expect, MI.accept, MI.check, MI.headKind, MI.string,
    MI.cstring, MI.value, MI.list, MI.tuple, MI.list_values, MI.list_values_tail,
    MI.list_results, MI.result, MI.comma_results, Tok.kind, Tok.text]

/-- C9: quoted-string values are escape-decoded by the tokenizer itself —
the CSTRING token for `"Hello\\n"` already carries the two-line string —
and the whole input parses to a single console stream record. -/
theorem claim9_escape_decoded_at_scan :
    mi_scanner_scan "~\"Hello\\n\"\n(gdb)\n"
      = .ok ([.TILDE, .CSTRING "Hello\n", .NL, .PROMPT, .NL], "")
  ∧ parse "~\"Hello\\n\"\n(gdb)\n" false = .ok ([.stream "~" "Hello\n"], none) := by
  refine ⟨?_, ?_⟩ <;>
  simp [parse, mi_scanner_scan, scanAux, scanOne, cstrBody, decodeChars, decode_string,
    readHex, hexVal, isOctal, octVal, digitsToNat, isIdentStart, isIdentChar,
    MIParser.parse, MI.output, MI.output_end, MI.post_records, MI.oob_loop, MI.post_loop,
    MI.out_of_band_record, MI.result_record, MI.stream_output, MI.async_output,
    MI.token_maybe, MI.expect, MI.accept, MI.check, MI.headKind, MI.string,
    MI.cstring, MI.value, MI.list, MI.tuple, MI.list_values, MI.list_values_tail,
    MI.list_results, MI.result, MI.comma_results, Tok.kind, Tok.text]

/-- C4 (counterexample): the empty input fails with `StopIteration` from
priming the lookahead on an empty token stream — a third failure mode,
distinct from both the lexical `AssertionError` and the grammar
`SyntaxError` (and from the decoding error). -/
theorem claim4_empty_input_counterexample :
    parse "" false = .error .stopIteration
  ∧ (∀ g, Fault.stopIteration ≠ Fault.syntaxError g)
  ∧ Fault.stopIteration ≠ Fault.assertionError
  ∧ (∀ m, Fault.stopIteration ≠ Fault.unicodeDecodeError m) := by
  refine ⟨?_, ?_, ?_, ?_⟩
  case' refine_2 => intro g h; cases h
  case' refine_3 => intro h; cases h
  case' refine_4 => intro m h; cases h
  simp [parse, mi_scanner_scan, scanAux, scanOne, cstrBody, decodeChars, decode_string,
    readHex, hexVal, isOctal, octVal, digitsToNat, isIdentStart, isIdentChar,
    MIParser.parse, MI.output, MI.output_end, MI.post_records, MI.oob_loop, MI.post_loop,
    MI.out_of_band_record, MI.result_record, MI.stream_output, MI.async_output,
    MI.token_maybe, MI.expect, MI.accept, MI.check, MI.headKind, MI.string,
    MI.cstring, MI.value, MI.list, MI.tuple, MI.list_values, MI.list_values_tail,
    MI.list_results, MI.result, MI.comma_results, Tok.kind, Tok.text]

/-- C5 (counterexample): the input `"^done\n"` tokenizes but lacks the
prompt; in default lenient mode the failure is the "expected out-of-band
record marker, got 'None'" grammar error — it does not name the prompt
token as the expected kind. -/
theorem claim5_lenient_missing_prompt_counterexample :
    parse "^done\n" false = .error (.syntaxError (.oobMarker none))
  ∧ (∀ g, GErr.oobMarker none ≠ GErr.expected "PROMPT" g) := by
  refine ⟨?_, ?_⟩
  case' refine_2 => intro g h; cases h
  simp [parse, mi_scanner_scan, scanAux, scanOne, cstrBody, decodeChars, decode_string,
    readHex, hexVal, isOctal, octVal, digitsToNat, isIdentStart, isIdentChar,
    MIParser.parse, MI.output, MI.output_end, MI.post_records, MI.oob_loop, MI.post_loop,
    MI.out_of_band_record, MI.result_record, MI.stream_output, MI.async_output,
    MI.token_maybe, MI.expect, MI.accept, MI.check, MI.headKind, MI.string,
    MI.cstring, MI.value, MI.list, MI.tuple, MI.list_values, MI.list_values_tail,
    MI.list_results, MI.result, MI.comma_results, Tok.kind, Tok.text]

/-- C6 (counterexample): an input containing the unscannable byte `#` can
still fail with the `UnicodeDecodeError` from `decode_string` instead of
the lexical `AssertionError`, because a CSTRING rule action runs (and
raises) during scanning, before the unmatched byte is reached. -/
theorem claim6_decode_error_counterexample :
    parse "~\"\\u\"#" false
      = .error (.unicodeDecodeError "truncated \\uXXXX escape")
  ∧ (∀ m, Fault.unicodeDecodeError m ≠ Fault.assertionError) := by
  refine ⟨?_, ?_⟩
  case' refine_2 => intro m h; cases h
  simp [parse, mi_scanner_scan, scanAux, scanOne, cstrBody, decodeChars, decode_string,
    readHex, hexVal, isOctal, octVal, digitsToNat, isIdentStart, isIdentChar,
    MIParser.parse, MI.output, MI.output_end, MI.post_records, MI.oob_loop, MI.post_loop,
    MI.out_of_band_record, MI.result_record, MI.stream_output, MI.async_output,
    MI.token_maybe, MI.expect, MI.accept, MI.check, MI.headKind, MI.string,
    MI.cstring, MI.value, MI.list, MI.tuple, MI.list_values, MI.list_values_tail,
    MI.list_results, MI.result, MI.comma_results, Tok.kind, Tok.text]

/-! ## Failure-mode classification -/

/-- Scanning that produces no tokens leaves the whole input as the
remainder: the very first rule application already failed. -/
theorem scanAux_nil {cs rem : List Char} (h : scanAux cs = .ok ([], rem)) :
    rem = cs := by
  unfold scanAux at h
  split at h
  · simp at h
  · simp at h
    exact h.symm
  · split at h <;> simp at h

/-- A scan returning no tokens returns the whole text as remainder. -/
theorem scan_nil_remainder {text rem : String}
    (h : mi_scanner_scan text = .ok ([], rem)) : rem = text := by
  unfold mi_scanner_scan at h
  split at h
  · simp at h
  · rename_i ts remL heq
    simp at h
    obtain ⟨hts, hrem⟩ := h
    subst hts
    have := scanAux_nil heq
    subst this
    cases text
    exact hrem.symm

/-- C4 (amended): a call to `parse` either returns a complete document or
fails with the lexical `AssertionError`, a grammar `SyntaxError` (carrying
expected and actual token kind), a `UnicodeDecodeError` from quoted-string
escape decoding, or — exactly on the empty input — the `StopIteration`
of priming the lookahead from an empty token stream; no partial result is
ever surfaced. -/
theorem claim4_failure_modes_amended : ∀ (text : String) (ped : Bool),
    (∃ d, parse text ped = .ok d)
  ∨ (∃ m, parse text ped = .error (.unicodeDecodeError m))
  ∨ parse text ped = .error .assertionError
  ∨ (∃ g, parse text ped = .error (.syntaxError g))
  ∨ (text = "" ∧ parse text ped = .error .stopIteration) := by
  intro text ped
  match hs : mi_scanner_scan text with
  | .error e =>
    right; left
    exact ⟨e, by unfold parse; rw [hs]⟩
  | .ok (ts, rem) =>
    by_cases hrem : rem = ""
    · subst hrem
      match ts, hs with
      | [], hs =>
        right; right; right; right
        have htext : ("" : String) = text := scan_nil_remainder hs
        refine ⟨htext.symm, ?_⟩
        unfold parse
        rw [hs]
        simp [MIParser.parse]
      | t :: ts', hs =>
        match ho : MI.output ped (t :: ts') with
        | .ok (doc, r) =>
          left
          refine ⟨doc, ?_⟩
          unfold parse
          rw [hs]
          simp [MIParser.parse, ho]
        | .error g =>
          right; right; right; left
          refine ⟨g, ?_⟩
          unfold parse
          rw [hs]
          simp [MIParser.parse, ho]
    · right; right; left
      unfold parse
      rw [hs]
      simp [hrem]

/-- C6 (amended): whenever scanning completes with a nonempty unmatched
remainder — no escape-decoding failure intervened — `parse` fails with the
lexical `AssertionError`, in both modes, before any grammar rule runs (the
grammar parser is never invoked and sees no tokens, partial or otherwise). -/
theorem claim6_unscannable_remainder_amended :
    ∀ (text : String) (ped : Bool) (ts : List Tok) (rem : String),
    mi_scanner_scan text = .ok (ts, rem) → rem ≠ "" →
    parse text ped = .error .assertionError := by
  intro text ped ts rem h hne
  unfold parse
  rw [h]
  simp [hne]

/-- Witness for the amended C6 at the spec's example input `"#"`. -/
theorem claim6_unscannable_remainder_amended_witness :
    mi_scanner_scan "#" = .ok ([], "#")
  ∧ ("#" : String) ≠ ""
  ∧ parse "#" false = .error .assertionError := by
  refine ⟨?_, by decide, ?_⟩
  · simp [mi_scanner_scan, scanAux, scanOne, isIdentStart, isIdentChar]
  · exact claim6_unscannable_remainder_amended "#" false [] "#"
      (by simp [mi_scanner_scan, scanAux, scanOne, isIdentStart, isIdentChar])
      (by decide)

/-! ## Missing-prompt failures -/

/-- A successful `expect` means the stream began with a token of the
expected kind. -/
theorem expect_ok {k : String} {ts : List Tok} {t : Tok} {r : MI.Consumed ts}
    (h : MI.expect k ts = .ok (t, r)) : ts = t :: r.val ∧ t.kind = k := by
  cases ts with
  | nil => simp [MI.expect] at h
  | cons a l =>
    rw [MI.expect] at h
    split at h
    · rename_i hk
      simp at h
      obtain ⟨hat, hr⟩ := h
      subst hat
      refine ⟨?_, hk⟩
      rw [← hr]
    · simp at h

/-- The only token whose kind string is "PROMPT" is the prompt token. -/
theorem kind_eq_prompt {t : Tok} (h : t.kind = "PROMPT") : t = .PROMPT := by
  cases t <;> simp_all [Tok.kind]

/-- If the tail of `_output` succeeds, the stream it read contained the
prompt token. -/
theorem output_end_ok_prompt {ped : Bool} {oobs : List Oob}
    {rr : Option ResultRec} {ts : List Tok} {doc : Document} {r : MI.Rest ts}
    (h : MI.output_end ped oobs rr ts = .ok (doc, r)) : Tok.PROMPT ∈ ts := by
  unfold MI.output_end at h
  cases hq : MI.post_records ped ts with
  | error e => rw [hq] at h; simp at h
  | ok p =>
    obtain ⟨oobs2, t3, h3⟩ := p
    rw [hq] at h
    dsimp only at h
    cases hq2 : MI.expect "PROMPT" t3 with
    | error e => rw [hq2] at h; simp at h
    | ok q =>
      obtain ⟨tk, t4, h4⟩ := q
      obtain ⟨hcons, hkind⟩ := expect_ok hq2
      have htk : tk = Tok.PROMPT := kind_eq_prompt hkind
      subst htk
      exact h3.subset (by rw [hcons]; exact List.mem_cons_self _ _)

/-- If `_output` succeeds, its input token stream contained the prompt. -/
theorem output_ok_prompt {ped : Bool} {ts : List Tok} {doc : Document}
    {r : MI.Rest ts} (h : MI.output ped ts = .ok (doc, r)) :
    Tok.PROMPT ∈ ts := by
  unfold MI.output at h
  cases hq : MI.oob_loop ped ts with
  | error e => rw [hq] at h; simp at h
  | ok p =>
    obtain ⟨oobs, t1, h1⟩ := p
    rw [hq] at h
    dsimp only at h
    by_cases hc : MI.check "CARET" t1
    · rw [if_pos hc] at h
      cases hq2 : MI.result_record t1 with
      | error e => rw [hq2] at h; simp at h
      | ok q =>
        obtain ⟨rr, t2, h2⟩ := q
        rw [hq2] at h
        dsimp only at h
        cases hq3 : MI.output_end ped oobs (some rr) t2 with
        | error e => rw [hq3] at h; simp at h
        | ok w =>
          exact h1.subset (h2.1.subset (output_end_ok_prompt hq3))
    · rw [if_neg hc] at h
      cases hq3 : MI.output_end ped oobs none t1 with
      | error e => rw [hq3] at h; simp at h
      | ok w =>
        exact h1.subset (output_end_ok_prompt hq3)

/-- A nonempty token stream without a prompt token makes `MIParser.parse`
fail with a grammar error. -/
theorem no_prompt_parse_fails {ts : List Tok} (ped : Bool)
    (hne : ts ≠ []) (hnp : Tok.PROMPT ∉ ts) :
    ∃ g, MIParser.parse ts ped = .error (.syntaxError g) := by
  match ts, hne with
  | t :: ts', _ =>
    match ho : MI.output ped (t :: ts') with
    | .ok (doc, r) => exact absurd (output_ok_prompt ho) hnp
    | .error g => exact ⟨g, by simp [MIParser.parse, ho]⟩

/-- C5 (amended): an input that tokenizes with no remainder but whose token
stream lacks the prompt token fails with a grammar error in both modes —
though not always one naming PROMPT as the expected kind: lenient mode
reports the missing prompt as "expected out-of-band record marker" (see the
counterexample), while pedantic mode reports "expected PROMPT". -/
theorem claim5_missing_prompt_amended {text : String} {ts : List Tok}
    (ped : Bool) (hscan : mi_scanner_scan text = .ok (ts, ""))
    (hne : ts ≠ []) (hnp : Tok.PROMPT ∉ ts) :
    ∃ g, parse text ped = .error (.syntaxError g) := by
  obtain ⟨g, hg⟩ := no_prompt_parse_fails ped hne hnp
  refine ⟨g, ?_⟩
  unfold parse
  rw [hscan]
  simpa using hg

/-- Witness for the amended C5 at the input `"^done\n"` in pedantic mode. -/
theorem claim5_missing_prompt_amended_witness :
    mi_scanner_scan "^done\n" = .ok ([.CARET, .STRING "done", .NL], "")
  ∧ ([Tok.CARET, Tok.STRING "done", Tok.NL] : List Tok) ≠ []
  ∧ Tok.PROMPT ∉ ([Tok.CARET, Tok.STRING "done", Tok.NL] : List Tok)
  ∧ ∃ g, parse "^done\n" true = .error (.syntaxError g) := by
  have hscan : mi_scanner_scan "^done\n"
      = .ok ([.CARET, .STRING "done", .NL], "") := by
    simp [mi_scanner_scan, scanAux, scanOne, digitsToNat, isIdentStart,
      isIdentChar, cstrBody]
  exact ⟨hscan, by decide, by decide,
    claim5_missing_prompt_amended true hscan (by decide) (by decide)⟩

/-! ## Single result record; post-result record placement -/

/-- C7: the document type of `_output` carries at most one result record,
and a second caret-introduced record after a parsed result record makes the
parse fail in both modes: lenient mode trips over the caret in its
catch-up loop ("expected out-of-band record marker, got 'CARET'") and
pedantic mode fails its prompt expectation ("expected PROMPT, got CARET"). -/
theorem claim7_second_result_record_rejected {ts : List Tok}
    {rr : ResultRec} {r2 : MI.Consumed ts} {rest : List Tok} (ped : Bool)
    (h0 : MI.check "CARET" ts = true)
    (h1 : MI.result_record ts = .ok (rr, r2))
    (h2 : r2.val = Tok.CARET :: rest) :
    MIParser.parse ts ped = .error (.syntaxError
      (if ped then .expected "PROMPT" (some "CARET")
       else .oobMarker (some "CARET"))) := by
  obtain ⟨t2, hsub⟩ := r2
  dsimp only at h2
  subst h2
  cases ts with
  | nil => simp [MI.check, MI.headKind] at h0
  | cons t ts' =>
    have hol : MI.oob_loop ped (t :: ts')
        = .ok ([], ⟨t :: ts', List.suffix_refl _⟩) := by
      unfold MI.oob_loop
      simp [h0]
    simp only [MIParser.parse]
    unfold MI.output
    rw [hol]
    dsimp only
    rw [if_pos h0, h1]
    dsimp only
    cases ped with
    | false =>
      unfold MI.output_end MI.post_records MI.post_loop
      simp [MI.check, MI.headKind, MI.out_of_band_record, Tok.kind]
    | true =>
      unfold MI.output_end MI.post_records
      simp [MI.expect, Tok.kind]

/-- Witness for C7 on the token stream of `"^done\n^done\n(gdb)\n"`. -/
theorem claim7_second_result_record_rejected_witness :
    MI.check "CARET" [Tok.CARET, Tok.STRING "done", Tok.NL, Tok.CARET,
      Tok.STRING "done", Tok.NL, Tok.PROMPT, Tok.NL] = true
  ∧ MIParser.parse [Tok.CARET, Tok.STRING "done", Tok.NL, Tok.CARET,
      Tok.STRING "done", Tok.NL, Tok.PROMPT, Tok.NL] false
      = .error (.syntaxError (.oobMarker (some "CARET")))
  ∧ MIParser.parse [Tok.CARET, Tok.STRING "done", Tok.NL, Tok.CARET,
      Tok.STRING "done", Tok.NL, Tok.PROMPT, Tok.NL] true
      = .error (.syntaxError (.expected "PROMPT" (some "CARET"))) := by
  have h1 : MI.result_record [Tok.CARET, Tok.STRING "done", Tok.NL,
      Tok.CARET, Tok.STRING "done", Tok.NL, Tok.PROMPT, Tok.NL]
      = .ok ((none, "done", none),
        ⟨[Tok.CARET, Tok.STRING "done", Tok.NL, Tok.PROMPT, Tok.NL],
         by decide, by decide⟩) := by
    simp [MI.result_record, MI.token_maybe, MI.expect, MI.string, MI.check,
      MI.headKind, MI.comma_results, Tok.kind, Tok.text]
  have h0 : MI.check "CARET" [Tok.CARET, Tok.STRING "done", Tok.NL,
      Tok.CARET, Tok.STRING "done", Tok.NL, Tok.PROMPT, Tok.NL] = true := by
    decide
  refine ⟨h0, ?_, ?_⟩
  · exact claim7_second_result_record_rejected false h0 h1 rfl
  · exact claim7_second_result_record_rejected true h0 h1 rfl

/-- C10: in lenient mode, out-of-band records parsed after the result
record are appended to the same single out-of-band list, after every record
collected before the result — the returned document therefore does not
record on which side of the result record they appeared. -/
theorem claim10_post_result_records_appended {ts : List Tok}
    {A B : List Oob} {rr : ResultRec} {r1 : MI.Rest ts} {rest : List Tok}
    (ha : MI.oob_loop false ts = .ok (A, r1))
    (hc : MI.check "CARET" r1.val = true) :
    ∀ {r2 : MI.Consumed r1.val} {r3 : MI.Rest r2.val},
    MI.result_record r1.val = .ok (rr, r2) →
    MI.post_loop false r2.val = .ok (B, r3) →
    r3.val = Tok.PROMPT :: Tok.NL :: rest →
    MIParser.parse ts false = .ok (A ++ B, some rr) := by
  obtain ⟨t1, hsub1⟩ := r1
  dsimp only at hc ⊢
  rintro ⟨t2, hsub2⟩ ⟨t3, hsub3⟩ hr hp hrest
  dsimp only at hrest hp ⊢
  subst hrest
  cases ts with
  | nil =>
    unfold MI.oob_loop at ha
    simp [MI.check, MI.headKind, MI.out_of_band_record] at ha
  | cons t ts' =>
    simp only [MIParser.parse]
    unfold MI.output
    rw [ha]
    dsimp only
    rw [if_pos hc, hr]
    dsimp only
    unfold MI.output_end MI.post_records
    simp only [Bool.false_eq_true, if_false]
    rw [hp]
    dsimp only
    simp [MI.expect, Tok.kind]

/-- Witness for C10: one stream record before the result record, one after;
the document interleaves nothing and returns both in one list. -/
theorem claim10_post_result_records_appended_witness :
    MIParser.parse [Tok.TILDE, Tok.CSTRING "a", Tok.NL, Tok.CARET,
      Tok.STRING "done", Tok.NL, Tok.TILDE, Tok.CSTRING "b", Tok.NL,
      Tok.PROMPT, Tok.NL] false
      = .ok ([Oob.stream "~" "a", Oob.stream "~" "b"],
             some (none, "done", none)) := by
  have ha : MI.oob_loop false [Tok.TILDE, Tok.CSTRING "a", Tok.NL, Tok.CARET,
      Tok.STRING "done", Tok.NL, Tok.TILDE, Tok.CSTRING "b", Tok.NL,
      Tok.PROMPT, Tok.NL]
      = .ok ([Oob.stream "~" "a"],
        ⟨[Tok.CARET, Tok.STRING "done", Tok.NL, Tok.TILDE, Tok.CSTRING "b",
          Tok.NL, Tok.PROMPT, Tok.NL], by decide⟩) := by
    unfold MI.oob_loop MI.out_of_band_record MI.stream_output
    simp [MI.check, MI.headKind, MI.expect, MI.cstring, MI.accept,
      Tok.kind, Tok.text]
    unfold MI.oob_loop
    simp [MI.check, MI.headKind, Tok.kind]
  have hr : MI.result_record [Tok.CARET, Tok.STRING "done", Tok.NL,
      Tok.TILDE, Tok.CSTRING "b", Tok.NL, Tok.PROMPT, Tok.NL]
      = .ok ((none, "done", none),
        ⟨[Tok.TILDE, Tok.CSTRING "b", Tok.NL, Tok.PROMPT, Tok.NL],
         by decide, by decide⟩) := by
    simp [MI.result_record, MI.token_maybe, MI.expect, MI.string, MI.check,
      MI.headKind, MI.comma_results, Tok.kind, Tok.text]
  have hp : MI.post_loop false [Tok.TILDE, Tok.CSTRING "b", Tok.NL,
      Tok.PROMPT, Tok.NL]
      = .ok ([Oob.stream "~" "b"], ⟨[Tok.PROMPT, Tok.NL], by decide⟩) := by
    unfold MI.post_loop MI.out_of_band_record MI.stream_output
    simp [MI.check, MI.headKind, MI.expect, MI.cstring, MI.accept,
      Tok.kind, Tok.text]
    unfold MI.post_loop
    simp [MI.check, MI.headKind, Tok.kind]
  exact claim10_post_result_records_appended ha (by decide) hr hp rfl

/-! ## Order and duplicate preservation (parse/render completeness) -/

/-- Every rendered value starts with a CSTRING, `[` or `\x7b` token. -/
theorem renderValue_head (v : Value) (rest : List Tok) :
    MI.headKind (renderValue v ++ rest) = some "CSTRING"
  ∨ MI.headKind (renderValue v ++ rest) = some "LBRACKET"
  ∨ MI.headKind (renderValue v ++ rest) = some "LBRACE" := by
  cases v with
  | str s => left; simp [renderValue, MI.headKind, Tok.kind]
  | vlist vs =>
    right; left
    cases vs <;> simp [renderValue, MI.headKind, Tok.kind]
  | results ps =>
    right; right
    cases ps <;> simp [renderValue, MI.headKind, Tok.kind]

/-- `_check` for any other kind fails at the start of a rendered value. -/
theorem check_render_false (v : Value) (rest : List Tok) (k : String)
    (h1 : k ≠ "CSTRING") (h2 : k ≠ "LBRACKET") (h3 : k ≠ "LBRACE") :
    MI.check k (renderValue v ++ rest) = false := by
  rcases renderValue_head v rest with h | h | h <;>
    simp [MI.check, h] <;>
    first
      | exact fun hh => h1 hh.symm
      | exact fun hh => h2 hh.symm
      | exact fun hh => h3 hh.symm

/-- `_accept` leaves the stream untouched when the lookahead kind differs. -/
theorem accept_none {k : String} {ts : List Tok} (h : MI.check k ts = false) :
    MI.accept k ts = (none, ⟨ts, List.suffix_refl _⟩) := by
  cases ts with
  | nil => simp [MI.accept]
  | cons t r =>
    simp [MI.check, MI.headKind] at h
    simp [MI.accept, h]

/-- `_result` reads a rendered `name = value` back to its pair. -/
theorem result_render (n : String) (v : Value)
    (ihv : ∀ rest, MI.unbundleC (MI.value (renderValue v ++ rest))
      = .ok (v, rest)) :
    ∀ rest,
      MI.unbundleC (MI.result (Tok.STRING n :: Tok.EQUALS :: (renderValue v ++ rest)))
        = .ok ((n, v), rest) := by
  intro rest
  unfold MI.result MI.string
  simp only [MI.expect, Tok.kind, Tok.text, reduceIte]
  split
  · rename_i heq
    have hv := ihv rest
    rw [heq] at hv
    simp [MI.unbundleC] at hv
  · rename_i v2 r3 h3 heq
    have hv := ihv rest
    rw [heq] at hv
    simp only [MI.unbundleC, Except.ok.injEq, Prod.mk.injEq] at hv
    obtain ⟨hv1, hv2⟩ := hv
    subst hv1
    subst hv2
    simp [MI.unbundleC]


/-- `_comma_prefixed_results` reads a rendered comma-led result tail back
to exactly the given pairs, in order, duplicates included. -/
theorem comma_results_render (ps : List (String × Value)) (closer : String)
    (ctok : Tok) (hk : ctok.kind = closer) (hnc : ctok.kind ≠ "COMMA")
    (ih : ∀ p ∈ ps, ∀ rest,
      MI.unbundleC (MI.value (renderValue p.2 ++ rest)) = .ok (p.2, rest)) :
    ∀ rest,
      MI.unbundleC (MI.comma_results closer (renderResultsTail ps ++ ctok :: rest))
        = .ok (ps, rest) := by
  induction ps with
  | nil =>
    intro rest
    have hc : MI.check "COMMA" (ctok :: rest) = false := by
      simp [MI.check, MI.headKind]
      exact fun hh => hnc hh
    unfold MI.comma_results
    simp only [renderResultsTail, List.nil_append, hc, Bool.false_eq_true,
      if_false]
    simp [MI.expect, hk, MI.unbundleC]
  | cons p ps' ihp =>
    intro rest
    obtain ⟨n, v⟩ := p
    have ih1 := result_render n v
      (fun r => ih (n, v) (List.mem_cons_self _ _) r)
      (renderResultsTail ps' ++ ctok :: rest)
    have ih2 := ihp (fun q hq r => ih q (List.mem_cons_of_mem _ hq) r) rest
    rw [show renderResultsTail ((n, v) :: ps') ++ ctok :: rest
        = Tok.COMMA :: Tok.STRING n :: Tok.EQUALS ::
            (renderValue v ++ (renderResultsTail ps' ++ ctok :: rest))
      from by simp [renderResultsTail, renderResult]]
    unfold MI.comma_results
    simp only [MI.check, MI.headKind, Tok.kind, beq_self_eq_true, if_true,
      reduceIte]
    simp only [MI.expect, Tok.kind, reduceIte]
    split
    · rename_i heq
      rw [heq] at ih1
      simp [MI.unbundleC] at ih1
    · rename_i p2 r2 h2 heq
      rw [heq] at ih1
      simp only [MI.unbundleC, Except.ok.injEq, Prod.mk.injEq] at ih1
      obtain ⟨hp2, hr2⟩ := ih1
      subst hp2
      subst hr2
      split
      · rename_i heq2
        rw [heq2] at ih2
        simp [MI.unbundleC] at ih2
      · rename_i ps2 r3 h3 heq2
        rw [heq2] at ih2
        simp only [MI.unbundleC, Except.ok.injEq, Prod.mk.injEq] at ih2
        obtain ⟨hps2, hr3⟩ := ih2
        subst hps2
        subst hr3
        simp [MI.unbundleC]


/-- The comma loop of `_list_values` reads a rendered tail back verbatim. -/
theorem values_tail_render (vs : List Value)
    (ih : ∀ v ∈ vs, ∀ rest,
      MI.unbundleC (MI.value (renderValue v ++ rest)) = .ok (v, rest)) :
    ∀ rest,
      MI.unbundleC (MI.list_values_tail (renderValuesTail vs ++ Tok.RBRACKET :: rest))
        = .ok (vs, rest) := by
  induction vs with
  | nil =>
    intro rest
    unfold MI.list_values_tail
    simp [renderValuesTail, MI.check, MI.headKind, Tok.kind, MI.expect,
      MI.unbundleC]
  | cons v vs' ihp =>
    intro rest
    have ih1 := ih v (List.mem_cons_self _ _)
      (renderValuesTail vs' ++ Tok.RBRACKET :: rest)
    have ih2 := ihp (fun w hw r => ih w (List.mem_cons_of_mem _ hw) r) rest
    rw [show renderValuesTail (v :: vs') ++ Tok.RBRACKET :: rest
        = Tok.COMMA :: (renderValue v ++ (renderValuesTail vs' ++ Tok.RBRACKET :: rest))
      from by simp [renderValuesTail]]
    unfold MI.list_values_tail
    simp only [MI.check, MI.headKind, Tok.kind, beq_self_eq_true, if_true,
      reduceIte]
    simp only [MI.expect, Tok.kind, reduceIte]
    split
    · rename_i heq
      rw [heq] at ih1
      simp [MI.unbundleC] at ih1
    · rename_i v2 r2 h2 heq
      rw [heq] at ih1
      simp only [MI.unbundleC, Except.ok.injEq, Prod.mk.injEq] at ih1
      obtain ⟨hv2, hr2⟩ := ih1
      subst hv2
      subst hr2
      split
      · rename_i heq2
        rw [heq2] at ih2
        simp [MI.unbundleC] at ih2
      · rename_i vs2 r3 h3 heq2
        rw [heq2] at ih2
        simp only [MI.unbundleC, Except.ok.injEq, Prod.mk.injEq] at ih2
        obtain ⟨hvs2, hr3⟩ := ih2
        subst hvs2
        subst hr3
        simp [MI.unbundleC]

/-- `_list_values` reads a rendered nonempty value list back verbatim. -/
theorem list_values_render (v : Value) (vs : List Value)
    (ihv : ∀ rest, MI.unbundleC (MI.value (renderValue v ++ rest)) = .ok (v, rest))
    (ih : ∀ w ∈ vs, ∀ rest,
      MI.unbundleC (MI.value (renderValue w ++ rest)) = .ok (w, rest)) :
    ∀ rest,
      MI.unbundleC (MI.list_values (renderValue v ++ (renderValuesTail vs ++ Tok.RBRACKET :: rest)))
        = .ok (.vlist (v :: vs), rest) := by
  intro rest
  have ih1 := ihv (renderValuesTail vs ++ Tok.RBRACKET :: rest)
  have ih2 := values_tail_render vs ih rest
  unfold MI.list_values
  split
  · rename_i heq
    rw [heq] at ih1
    simp [MI.unbundleC] at ih1
  · rename_i v2 r2 h2 heq
    rw [heq] at ih1
    simp only [MI.unbundleC, Except.ok.injEq, Prod.mk.injEq] at ih1
    obtain ⟨hv2, hr2⟩ := ih1
    subst hv2
    subst hr2
    split
    · rename_i heq2
      rw [heq2] at ih2
      simp [MI.unbundleC] at ih2
    · rename_i vs2 r3 h3 heq2
      rw [heq2] at ih2
      simp only [MI.unbundleC, Except.ok.injEq, Prod.mk.injEq] at ih2
      obtain ⟨hvs2, hr3⟩ := ih2
      subst hvs2
      subst hr3
      simp [MI.unbundleC]


/-- Parse/render completeness for `_value`: rendering any value and parsing
it back returns that value and leaves exactly the given rest. -/
theorem value_render : ∀ (v : Value) (rest : List Tok),
    MI.unbundleC (MI.value (renderValue v ++ rest)) = .ok (v, rest) := by
  intro v
  induction v using Value.inductionOn with
  | hstr s =>
    intro rest
    rw [show renderValue (.str s) ++ rest = Tok.CSTRING s :: rest
      from by simp [renderValue]]
    simp [MI.value, MI.headKind, Tok.kind, MI.cstring, MI.expect, Tok.text,
      MI.unbundleC]
  | hlist vs ih =>
    cases vs with
    | nil =>
      intro rest
      rw [show renderValue (.vlist []) ++ rest = Tok.LBRACKET :: Tok.RBRACKET :: rest
        from by simp [renderValue]]
      simp [MI.value, MI.headKind, Tok.kind, MI.list, MI.expect, MI.accept,
        MI.unbundleC]
    | cons v vs' =>
      intro rest
      rw [show renderValue (.vlist (v :: vs')) ++ rest
          = Tok.LBRACKET :: (renderValue v ++ (renderValuesTail vs' ++ Tok.RBRACKET :: rest))
        from by simp [renderValue]]
      unfold MI.value MI.list
      simp only [MI.headKind, Tok.kind]
      simp only [MI.expect, Tok.kind, reduceIte]
      rw [accept_none (check_render_false v _ "RBRACKET"
        (by decide) (by decide) (by decide))]
      have hs : MI.check "STRING"
          (renderValue v ++ (renderValuesTail vs' ++ Tok.RBRACKET :: rest)) = false :=
        check_render_false v _ "STRING" (by decide) (by decide) (by decide)
      simp only [hs, Bool.false_eq_true, if_false]
      have ih1 := list_values_render v vs'
        (ih v (List.mem_cons_self _ _))
        (fun w hw => ih w (List.mem_cons_of_mem _ hw)) rest
      split
      · rename_i heq
        rw [heq] at ih1
        simp [MI.unbundleC] at ih1
      · rename_i v2 r2 h2 heq
        rw [heq] at ih1
        simp only [MI.unbundleC, Except.ok.injEq, Prod.mk.injEq] at ih1
        obtain ⟨hv2, hr2⟩ := ih1
        subst hv2
        subst hr2
        simp [MI.unbundleC]
  | hres ps ih =>
    cases ps with
    | nil =>
      intro rest
      rw [show renderValue (.results []) ++ rest = Tok.LBRACE :: Tok.RBRACE :: rest
        from by simp [renderValue]]
      simp [MI.value, MI.headKind, Tok.kind, MI.tuple, MI.expect, MI.accept,
        MI.unbundleC]
    | cons p ps' =>
      obtain ⟨n, v⟩ := p
      intro rest
      rw [show renderValue (.results ((n, v) :: ps')) ++ rest
          = Tok.LBRACE :: Tok.STRING n :: Tok.EQUALS ::
              (renderValue v ++ (renderResultsTail ps' ++ Tok.RBRACE :: rest))
        from by simp [renderValue, renderResult]]
      unfold MI.value MI.tuple
      simp only [MI.headKind, Tok.kind]
      simp only [MI.expect, Tok.kind, reduceIte]
      simp only [MI.accept, Tok.kind, String.reduceEq, reduceIte]
      have ih1 := result_render n v
        (ih (n, v) (List.mem_cons_self _ _))
        (renderResultsTail ps' ++ Tok.RBRACE :: rest)
      have ih2 := comma_results_render ps' "RBRACE" Tok.RBRACE rfl
        (by decide)
        (fun q hq => ih q (List.mem_cons_of_mem _ hq)) rest
      split
      · rename_i heq
        rw [heq] at ih1
        simp [MI.unbundleC] at ih1
      · rename_i p2 r2 h2 heq
        rw [heq] at ih1
        simp only [MI.unbundleC, Except.ok.injEq, Prod.mk.injEq] at ih1
        obtain ⟨hp2, hr2⟩ := ih1
        subst hp2
        subst hr2
        split
        · rename_i heq2
          rw [heq2] at ih2
          simp [MI.unbundleC] at ih2
        · rename_i ps2 r3 h3 heq2
          rw [heq2] at ih2
          simp only [MI.unbundleC, Except.ok.injEq, Prod.mk.injEq] at ih2
          obtain ⟨hps2, hr3⟩ := ih2
          subst hps2
          subst hr3
          simp [MI.unbundleC]


/-- `_list_results` reads a rendered bracket result list back verbatim. -/
theorem list_results_core (n : String) (v : Value)
    (rs : List (String × Value)) :
    ∀ rest,
      MI.unbundleC (MI.list_results (Tok.STRING n :: Tok.EQUALS ::
          (renderValue v ++ (renderResultsTail rs ++ Tok.RBRACKET :: rest))))
        = .ok (.results ((n, v) :: rs), rest) := by
  intro rest
  unfold MI.list_results
  have ih1 := result_render n v (fun r => value_render v r)
    (renderResultsTail rs ++ Tok.RBRACKET :: rest)
  have ih2 := comma_results_render rs "RBRACKET" Tok.RBRACKET rfl (by decide)
    (fun q hq r => value_render q.2 r) rest
  split
  · rename_i heq
    rw [heq] at ih1
    simp [MI.unbundleC] at ih1
  · rename_i p2 r2 h2 heq
    rw [heq] at ih1
    simp only [MI.unbundleC, Except.ok.injEq, Prod.mk.injEq] at ih1
    obtain ⟨hp2, hr2⟩ := ih1
    subst hp2
    subst hr2
    split
    · rename_i heq2
      rw [heq2] at ih2
      simp [MI.unbundleC] at ih2
    · rename_i ps2 r3 h3 heq2
      rw [heq2] at ih2
      simp only [MI.unbundleC, Except.ok.injEq, Prod.mk.injEq] at ih2
      obtain ⟨hps2, hr3⟩ := ih2
      subst hps2
      subst hr3
      simp [MI.unbundleC]

/-- `_value` on a bracket-form result list returns the pairs in order. -/
theorem list_results_render (n : String) (v : Value)
    (rs : List (String × Value)) :
    ∀ rest,
      MI.unbundleC (MI.value (Tok.LBRACKET :: Tok.STRING n :: Tok.EQUALS ::
          (renderValue v ++ (renderResultsTail rs ++ Tok.RBRACKET :: rest))))
        = .ok (.results ((n, v) :: rs), rest) := by
  intro rest
  unfold MI.value MI.list
  simp only [MI.headKind, Tok.kind]
  simp only [MI.expect, Tok.kind, reduceIte]
  simp only [MI.accept, Tok.kind, String.reduceEq, reduceIte]
  simp only [MI.check, MI.headKind, Tok.kind, beq_self_eq_true, if_true]
  have ih1 := list_results_core n v rs rest
  split
  · rename_i heq
    rw [heq] at ih1
    simp [MI.unbundleC] at ih1
  · rename_i v2 r2 h2 heq
    rw [heq] at ih1
    simp only [MI.unbundleC, Except.ok.injEq, Prod.mk.injEq] at ih1
    obtain ⟨hv2, hr2⟩ := ih1
    subst hv2
    subst hr2
    simp [MI.unbundleC]

/-- C3: within a tuple or result list, named results are parsed back in
document order with duplicate names kept as distinct entries — never
merged.  Stated as parse/render completeness: every sequence of named
results, duplicates and all, is returned verbatim from its rendered token
form: in brace (tuple) form, in bracket (list-of-results) form, and at
record level through `_comma_prefixed_results`; plus a closed duplicate
example. -/
theorem claim3_order_duplicates_preserved :
    (∀ (rs : List (String × Value)) (rest : List Tok),
      MI.unbundleC (MI.value (renderValue (.results rs) ++ rest))
        = .ok (.results rs, rest))
  ∧ (∀ (n : String) (v : Value) (rs : List (String × Value)) (rest : List Tok),
      MI.unbundleC (MI.value (Tok.LBRACKET :: Tok.STRING n :: Tok.EQUALS ::
          (renderValue v ++ (renderResultsTail rs ++ Tok.RBRACKET :: rest))))
        = .ok (.results ((n, v) :: rs), rest))
  ∧ (∀ (rs : List (String × Value)) (rest : List Tok),
      MI.unbundleC (MI.comma_results "NL" (renderResultsTail rs ++ Tok.NL :: rest))
        = .ok (rs, rest))
  ∧ MI.unbundleC (MI.value [Tok.LBRACE, Tok.STRING "a", Tok.EQUALS,
        Tok.CSTRING "1", Tok.COMMA, Tok.STRING "a", Tok.EQUALS,
        Tok.CSTRING "2", Tok.RBRACE])
      = .ok (.results [("a", .str "1"), ("a", .str "2")], []) := by
  refine ⟨fun rs rest => value_render (.results rs) rest,
    fun n v rs rest => list_results_render n v rs rest,
    fun rs rest => comma_results_render rs "NL" Tok.NL rfl (by decide)
      (fun q hq r => value_render q.2 r) rest, ?_⟩
  simp [MI.value, MI.headKind, Tok.kind, MI.tuple, MI.expect, MI.accept,
    MI.result, MI.string, MI.cstring, MI.comma_results, MI.check, Tok.text,
    MI.unbundleC]
